import Mathlib

/-!
# Verification of the o.works pricing engine and quote-snapshot read model

This file is a shallow embedding, in Lean 4, of the core logic of the
`Simplici0/o.works` repository: the pricing calculation engine
(`internal/pricing`, function `Calculate`), the multi-item snapshot
calculation (`cmd/server`, function `calculateQuoteSnapshot`), the snapshot
writer (JSON serialization of `quoteCalcBreakdown` / `quoteCalcTotals`), the
tolerant snapshot reader (`extractBreakdownFromJSON`, `parseJSONNumberMap`,
`collectNumericValues`, `normalizeJSONKey`, `pickFloat`,
`extractTotalFromJSON`) and the quote list/search (`listQuotes`).

Modelling conventions:
* Go `float64` values are modelled as exact rationals (`ℚ`); the properties
  at stake are algebraic identities of the formulas, not rounding behaviour.
* A JSON *text* is modelled at the level of its parse result: `Option JVal`,
  where `none` stands for a string that `encoding/json` rejects as invalid
  JSON and `some v` for a string parsing to the JSON value `v`.  `JVal` is a
  standard JSON value tree.  Go's `map[string]interface{}` obtained from a
  JSON object is modelled by the object's field list processed left to right
  with later duplicates overwriting earlier ones (Go maps keep one entry per
  key, last write wins; Go's random map iteration order is determinized to
  source order).
* Go `strings.ToLower` / SQLite `LIKE` case folding are modelled by ASCII
  lowering (`lowerAscii`); every key and search string exercised by the
  specification is ASCII.
* The SQLite `quotes` table is modelled as a list of rows; `datetime(created_at)`
  of a well-formed stored timestamp is order-isomorphic to the chronological
  order, so `createdAt` is modelled as a natural number with that order.
-/

namespace OWorks

/-- ASCII lower-casing of one character, as performed by SQLite's `LIKE`
(case folding for ASCII only) and by Go's `strings.ToLower` on the ASCII
subset that all snapshot keys use. -/
def lowerAscii (c : Char) : Char :=
  if 'A' ≤ c ∧ c ≤ 'Z' then Char.ofNat (c.toNat + 32) else c

/-! ## Pricing engine (`internal/pricing/pricing.go`) -/

/-- Go struct `pricing.ItemInput`: item-level inputs of the cost estimate. -/
structure ItemInput where
  Grams        : ℚ
  PrintMinutes : ℚ
  LaborMinutes : ℚ
  Quantity     : ℚ
  CostPerKg    : ℚ
deriving DecidableEq

/-- Go struct `pricing.GlobalInput`: shop-wide pricing parameters. -/
structure GlobalInput where
  MachineHourlyRate  : ℚ
  LaborPerMinute     : ℚ
  OverheadFixed      : ℚ
  OverheadPercent    : ℚ
  FailureRatePercent : ℚ
  WastePercent       : ℚ
  MarginPercent      : ℚ
  TaxEnabled         : Bool
  TaxPercent         : ℚ
  PackagingCost      : ℚ
  ShippingCost       : ℚ
deriving DecidableEq

/-- Go struct `pricing.Breakdown`: all intermediate values of a calculation. -/
structure Breakdown where
  MaterialCost     : ℚ
  MachineCost      : ℚ
  LaborCost        : ℚ
  Subtotal         : ℚ
  Overhead         : ℚ
  FailureInsurance : ℚ
  PackagingCost    : ℚ
  ShippingCost     : ℚ
  Margin           : ℚ
  Tax              : ℚ
deriving DecidableEq

/-- Go struct `pricing.Totals`. -/
structure Totals where
  Total : ℚ
deriving DecidableEq

/-- Go struct `pricing.Result`. -/
structure Result where
  Breakdown : Breakdown
  Totals    : Totals
deriving DecidableEq

/-- Embedding of Go `pricing.Calculate(item, global)`, line for line. -/
def Calculate (item : ItemInput) (global : GlobalInput) : Result :=
  let materialCost := (item.Grams / 1000) * item.CostPerKg * (1 + global.WastePercent / 100)
  let machineCost := (item.PrintMinutes / 60) * global.MachineHourlyRate
  let laborCost := item.LaborMinutes * global.LaborPerMinute
  let subtotal := (materialCost + machineCost + laborCost) * item.Quantity
  let overhead := global.OverheadFixed + subtotal * (global.OverheadPercent / 100)
  let failureInsurance := subtotal * (global.FailureRatePercent / 100)
  let margin := (global.MarginPercent / 100) * (subtotal + overhead + failureInsurance)
  let tax := if global.TaxEnabled then
      (global.TaxPercent / 100) * (subtotal + overhead + failureInsurance + margin)
    else 0
  let total := subtotal + overhead + failureInsurance + global.PackagingCost +
      global.ShippingCost + margin + tax
  { Breakdown :=
      { MaterialCost := materialCost
        MachineCost := machineCost
        LaborCost := laborCost
        Subtotal := subtotal
        Overhead := overhead
        FailureInsurance := failureInsurance
        PackagingCost := global.PackagingCost
        ShippingCost := global.ShippingCost
        Margin := margin
        Tax := tax }
    Totals := { Total := total } }

/-- The item of the repository's own reference test
`TestCalculate_QuantityGreaterThanOne`. -/
def testItem : ItemInput :=
  { Grams := 200, PrintMinutes := 30, LaborMinutes := 10, Quantity := 3, CostPerKg := 20 }

/-- The global input of that same reference test (all other parameters zero). -/
def testGlobal : GlobalInput :=
  { MachineHourlyRate := 60, LaborPerMinute := 1/2, OverheadFixed := 0,
    OverheadPercent := 0, FailureRatePercent := 0, WastePercent := 0,
    MarginPercent := 0, TaxEnabled := false, TaxPercent := 0,
    PackagingCost := 0, ShippingCost := 0 }

/-! ## Theorems about the pricing engine (claims C1, C2, C8) -/

/-- C1 (counterexample): at the repository's own reference-test input
(quantity 3), the Breakdown returned by `Calculate` violates the spec's
invariant `Subtotal = MaterialCost + MachineCost + LaborCost`: the component
costs are per-unit (4, 30, 5) while the subtotal is quantity-scaled (117). -/
theorem calculate_subtotal_invariant_fails_at_quantity_three :
    (Calculate testItem testGlobal).Breakdown.Subtotal ≠
      (Calculate testItem testGlobal).Breakdown.MaterialCost +
      (Calculate testItem testGlobal).Breakdown.MachineCost +
      (Calculate testItem testGlobal).Breakdown.LaborCost := by
  norm_num [Calculate, testItem, testGlobal]

/-- C1 (amended): for every item input and global input, the Breakdown
returned by `Calculate` satisfies
`Subtotal = (MaterialCost + MachineCost + LaborCost) * Quantity`; the
unscaled identity of the spec holds only when `Quantity = 1` or the
component sum is zero. -/
theorem calculate_subtotal_eq_component_sum_mul_quantity
    (item : ItemInput) (global : GlobalInput) :
    (Calculate item global).Breakdown.Subtotal =
      ((Calculate item global).Breakdown.MaterialCost +
       (Calculate item global).Breakdown.MachineCost +
       (Calculate item global).Breakdown.LaborCost) * item.Quantity := rfl

/-- C2: for every item input and global input, `Calculate` returns exactly
the reference formula of spec section 4.1: material, machine and labor costs
per steps 1–3, quantity applied to the component sum, overhead as fixed plus
percent of subtotal, failure insurance as percent of subtotal, margin on
cost excluding packaging/shipping, tax conditional on the flag and computed
on cost plus margin, packaging/shipping passed through, and
`Totals.Total` as the sum of all parts. -/
theorem calculate_matches_reference_formula
    (item : ItemInput) (global : GlobalInput) :
    (Calculate item global).Breakdown.MaterialCost =
        (item.Grams / 1000) * item.CostPerKg * (1 + global.WastePercent / 100) ∧
    (Calculate item global).Breakdown.MachineCost =
        (item.PrintMinutes / 60) * global.MachineHourlyRate ∧
    (Calculate item global).Breakdown.LaborCost =
        item.LaborMinutes * global.LaborPerMinute ∧
    (Calculate item global).Breakdown.Subtotal =
        ((Calculate item global).Breakdown.MaterialCost +
         (Calculate item global).Breakdown.MachineCost +
         (Calculate item global).Breakdown.LaborCost) * item.Quantity ∧
    (Calculate item global).Breakdown.Overhead =
        global.OverheadFixed +
          (Calculate item global).Breakdown.Subtotal * (global.OverheadPercent / 100) ∧
    (Calculate item global).Breakdown.FailureInsurance =
        (Calculate item global).Breakdown.Subtotal * (global.FailureRatePercent / 100) ∧
    (Calculate item global).Breakdown.Margin =
        (global.MarginPercent / 100) *
          ((Calculate item global).Breakdown.Subtotal +
           (Calculate item global).Breakdown.Overhead +
           (Calculate item global).Breakdown.FailureInsurance) ∧
    (Calculate item global).Breakdown.Tax =
        (if global.TaxEnabled then
          (global.TaxPercent / 100) *
            ((Calculate item global).Breakdown.Subtotal +
             (Calculate item global).Breakdown.Overhead +
             (Calculate item global).Breakdown.FailureInsurance +
             (Calculate item global).Breakdown.Margin)
        else 0) ∧
    (Calculate item global).Breakdown.PackagingCost = global.PackagingCost ∧
    (Calculate item global).Breakdown.ShippingCost = global.ShippingCost ∧
    (Calculate item global).Totals.Total =
        (Calculate item global).Breakdown.Subtotal +
        (Calculate item global).Breakdown.Overhead +
        (Calculate item global).Breakdown.FailureInsurance +
        (Calculate item global).Breakdown.PackagingCost +
        (Calculate item global).Breakdown.ShippingCost +
        (Calculate item global).Breakdown.Margin +
        (Calculate item global).Breakdown.Tax :=
  ⟨rfl, rfl, rfl, rfl, rfl, rfl, rfl, rfl, rfl, rfl, rfl⟩

/-- C8 (counterexample): `Calculate` at quantity 0 does not yield zero
costs: with grams 1000 at 10 per kg and a fixed overhead of 10, the
Breakdown keeps a non-zero per-unit `MaterialCost` of 10 and the total is
the fixed overhead 10, not 0. -/
theorem calculate_quantity_zero_not_all_costs_zero :
    (Calculate { Grams := 1000, PrintMinutes := 0, LaborMinutes := 0,
                 Quantity := 0, CostPerKg := 10 }
               { testGlobal with OverheadFixed := 10 }).Breakdown.MaterialCost ≠ 0 ∧
    (Calculate { Grams := 1000, PrintMinutes := 0, LaborMinutes := 0,
                 Quantity := 0, CostPerKg := 10 }
               { testGlobal with OverheadFixed := 10 }).Totals.Total ≠ 0 := by
  norm_num [Calculate, testGlobal]

/-- C8 (amended): `Calculate` is a total function (in this embedding it is a
plain function into `Result`, with no error case); for the degenerate input
`Quantity = 0` the quantity-scaled costs vanish — `Subtotal = 0` and
`FailureInsurance = 0`, `Overhead` reduces to the fixed component — and when
the fixed charges (`OverheadFixed`, `PackagingCost`, `ShippingCost`) are
also zero the `Total` is zero; the per-unit component costs (material,
machine, labor) are unaffected by the quantity. -/
theorem calculate_quantity_zero_yields_zero_scaled_costs
    (item : ItemInput) (global : GlobalInput) (hq : item.Quantity = 0) :
    (Calculate item global).Breakdown.Subtotal = 0 ∧
    (Calculate item global).Breakdown.FailureInsurance = 0 ∧
    (Calculate item global).Breakdown.Overhead = global.OverheadFixed ∧
    (global.OverheadFixed = 0 → global.PackagingCost = 0 → global.ShippingCost = 0 →
      (Calculate item global).Totals.Total = 0) := by
  simp only [Calculate, hq]
  refine ⟨by ring, by ring, by ring, ?_⟩
  intro h1 h2 h3
  simp only [h1, h2, h3]
  rcases global.TaxEnabled with _ | _ <;> simp

/-- C8 (witness): the amended theorem applied at a concrete quantity-zero
input. -/
theorem calculate_quantity_zero_yields_zero_scaled_costs_witness :
    (Calculate { Grams := 1000, PrintMinutes := 0, LaborMinutes := 0,
                 Quantity := 0, CostPerKg := 10 } testGlobal).Breakdown.Subtotal = 0 ∧
    (Calculate { Grams := 1000, PrintMinutes := 0, LaborMinutes := 0,
                 Quantity := 0, CostPerKg := 10 } testGlobal).Breakdown.FailureInsurance = 0 ∧
    (Calculate { Grams := 1000, PrintMinutes := 0, LaborMinutes := 0,
                 Quantity := 0, CostPerKg := 10 } testGlobal).Breakdown.Overhead =
      testGlobal.OverheadFixed ∧
    (testGlobal.OverheadFixed = 0 → testGlobal.PackagingCost = 0 →
      testGlobal.ShippingCost = 0 →
      (Calculate { Grams := 1000, PrintMinutes := 0, LaborMinutes := 0,
                   Quantity := 0, CostPerKg := 10 } testGlobal).Totals.Total = 0) :=
  calculate_quantity_zero_yields_zero_scaled_costs _ testGlobal (by decide)

/-! ## JSON value model

A persisted snapshot is a JSON text.  `JVal` models the parse tree produced
by `encoding/json`; `Option JVal` models a text (`none` = the text is not
valid JSON, so `json.Unmarshal` fails on it). -/

mutual
inductive JVal where
  | num     (v : ℚ)
  | str     (s : String)
  | boolean (b : Bool)
  | null
  | arr     (elems : List JVal)
  | obj     (fields : JObj)

/-- The member list of a JSON object (its own inductive rather than
`List (String × JVal)` so that the recursive snapshot-reader walk below is
structurally recursive and hence computable by the kernel). -/
inductive JObj where
  | nil
  | cons (key : String) (val : JVal) (rest : JObj)
end

/-- Build a `JObj` from an association list (convenience for writing
concrete documents). -/
def JObj.ofList : List (String × JVal) → JObj
  | [] => .nil
  | (key, val) :: rest => .cons key val (JObj.ofList rest)

/-- Embedding of Go `normalizeJSONKey`: lower-case, trim surrounding white
space, replace `-` by `_`.  (Go uses `strings.ToLower`/`strings.TrimSpace`;
the ASCII behaviour modelled here is what all snapshot keys exercise.) -/
def normalizeJSONKey (key : String) : String :=
  let isSpace : Char → Bool := fun c =>
    c == ' ' || c == '\t' || c == '\n' || c == '\x0b' || c == '\x0c' || c == '\r'
  let lowered := key.data.map lowerAscii
  let trimmed := ((lowered.dropWhile isSpace).reverse.dropWhile isSpace).reverse
  ⟨trimmed.map fun c => if c = '-' then '_' else c⟩

mutual
/-- The `switch` in the loop body of Go `collectNumericValues`: a numeric
value is recorded under its (already normalized and prefixed) key, a nested
object is walked recursively with that key as the new prefix, any other
value is ignored. -/
def collectNumericValue (values : List (String × ℚ)) (normalizedKey : String) :
    JVal → List (String × ℚ)
  | .num v => (normalizedKey, v) :: values
  | .obj fields => collectNumericValues values normalizedKey fields
  | _ => values

/-- Embedding of Go `collectNumericValues`: walk the decoded object,
normalize keys, join nested keys with `_`, record numeric leaves.  The Go
map is modelled as an association list to which entries are prepended and
looked up front-first, so a later write to the same key wins, as in Go. -/
def collectNumericValues (values : List (String × ℚ)) (pfx : String) :
    JObj → List (String × ℚ)
  | .nil => values
  | .cons key val rest =>
    let normalizedKey :=
      if pfx = "" then normalizeJSONKey key else pfx ++ "_" ++ normalizeJSONKey key
    collectNumericValues (collectNumericValue values normalizedKey val) pfx rest
end

/-- Embedding of Go `parseJSONNumberMap`: decode the text as `map[string]any`
and collect its numeric leaves.  `json.Unmarshal` into `map[string]any`
fails (leaving the map empty) unless the top-level value is an object, and
is a no-op on JSON `null`; in every non-object case the function returns the
empty map. -/
def parseJSONNumberMap (raw : Option JVal) : List (String × ℚ) :=
  match raw with
  | some (.obj fields) => collectNumericValues [] "" fields
  | _ => []

/-- Embedding of Go `pickFloat`: first alias whose normalized key — plain or
prefixed with `breakdown_` — is present wins; otherwise zero. -/
def pickFloat (values : List (String × ℚ)) : List String → ℚ
  | [] => 0
  | key :: rest =>
    match List.lookup (normalizeJSONKey key) values with
    | some value => value
    | none =>
      match List.lookup ("breakdown_" ++ normalizeJSONKey key) values with
      | some value => value
      | none => pickFloat values rest

/-- Embedding of Go `extractBreakdownFromJSON` with its alias table. -/
def extractBreakdownFromJSON (raw : Option JVal) : Breakdown :=
  let values := parseJSONNumberMap raw
  { MaterialCost := pickFloat values ["material_cost", "material"]
    MachineCost := pickFloat values ["machine_cost", "machine"]
    LaborCost := pickFloat values ["labor_cost", "labor"]
    Subtotal := pickFloat values ["subtotal"]
    Overhead := pickFloat values ["overhead"]
    FailureInsurance := pickFloat values ["failure_insurance", "failure"]
    PackagingCost := pickFloat values ["packaging_cost", "packaging"]
    ShippingCost := pickFloat values ["shipping_cost", "shipping"]
    Margin := pickFloat values ["margin"]
    Tax := pickFloat values ["tax"] }

/-- The member loop of the strict `map[string]float64` decode below: every
member value must be a number (recorded as is) or `null` (recorded as 0,
since `encoding/json` treats unmarshaling `null` as a no-op on the freshly
allocated `float64` map element); anything else fails the decode. -/
def numberFieldsToMap (acc : List (String × ℚ)) :
    JObj → Option (List (String × ℚ))
  | .nil => some acc
  | .cons key (.num v) rest => numberFieldsToMap ((key, v) :: acc) rest
  | .cons key .null rest => numberFieldsToMap ((key, 0) :: acc) rest
  | .cons _ _ _ => none

/-- Strict decoding of a totals text as Go `map[string]float64`:
`json.Unmarshal` succeeds only when the top-level value is an object all of
whose member values are numbers or `null`, or the top-level value is `null`
(no-op, empty map); any other shape errors, which the caller turns into 0.
Later duplicates win, as in a Go map. -/
def decodeNumberMap (raw : Option JVal) : Option (List (String × ℚ)) :=
  match raw with
  | some (.obj fields) => numberFieldsToMap [] fields
  | some .null => some []
  | _ => none

/-- Embedding of Go `extractTotalFromJSON`: strict number-map decode, then
the keys `total`, `grand_total`, `final_total` in priority order, else 0. -/
def extractTotalFromJSON (raw : Option JVal) : ℚ :=
  match decodeNumberMap raw with
  | none => 0
  | some values =>
    match List.lookup "total" values with
    | some total => total
    | none =>
      match List.lookup "grand_total" values with
      | some total => total
      | none =>
        match List.lookup "final_total" values with
        | some total => total
        | none => 0

/-! ## Snapshot writer (`cmd/server/main.go`) -/

/-- Go struct `quoteCalcBreakdown`: the snapshot writer's breakdown record,
whose `json` tags are the stable lower-snake-case field names. -/
structure quoteCalcBreakdown where
  MaterialCost     : ℚ
  MachineCost      : ℚ
  LaborCost        : ℚ
  Subtotal         : ℚ
  Overhead         : ℚ
  FailureInsurance : ℚ
  PackagingCost    : ℚ
  ShippingCost     : ℚ
  Margin           : ℚ
  Tax              : ℚ
deriving DecidableEq

/-- Go struct `quoteCalcTotals`. -/
structure quoteCalcTotals where
  Total : ℚ
deriving DecidableEq

/-- Serialization `json.Marshal` of a `quoteCalcBreakdown`: an object whose
keys are the struct's `json` tags, in struct-field order. -/
def encodeBreakdownJSON (b : quoteCalcBreakdown) : JVal :=
  .obj (JObj.ofList
    [("material_cost", .num b.MaterialCost),
     ("machine_cost", .num b.MachineCost),
     ("labor_cost", .num b.LaborCost),
     ("subtotal", .num b.Subtotal),
     ("overhead", .num b.Overhead),
     ("failure_insurance", .num b.FailureInsurance),
     ("packaging_cost", .num b.PackagingCost),
     ("shipping_cost", .num b.ShippingCost),
     ("margin", .num b.Margin),
     ("tax", .num b.Tax)])

/-! ## Spec-side decoder for claim C4

A second decoder written from the words of the claim (flatten by joining
keys with `_`, normalize keys, fill each field from the first matching alias
— plain or `breakdown_`-prefixed — default zero), parameterized by the key
normalization so that both the claim's normalization (lowercase, dash to
underscore) and the amended one (which also trims surrounding whitespace)
can be instantiated. -/

/-- The claim's key normalization, verbatim: "lowercasing and replacing `-`
with `_`" (no whitespace trimming). -/
def claimedNormalizeKey (key : String) : String :=
  ⟨(key.data.map lowerAscii).map fun c => if c = '-' then '_' else c⟩

mutual
/-- Spec-side flattening of one JSON value under its flattened key. -/
def specFlattenValue (norm : String → String) (values : List (String × ℚ))
    (flatKey : String) : JVal → List (String × ℚ)
  | .num v => (flatKey, v) :: values
  | .obj fields => specFlattenFields norm values flatKey fields
  | _ => values

/-- Spec-side flattening: "flattens nested objects by concatenating parent
and child keys with `_`, normalizes every key". -/
def specFlattenFields (norm : String → String) (values : List (String × ℚ))
    (parent : String) : JObj → List (String × ℚ)
  | .nil => values
  | .cons key val rest =>
    let flatKey := if parent = "" then norm key else parent ++ "_" ++ norm key
    specFlattenFields norm (specFlattenValue norm values flatKey val) parent rest
end

/-- Spec-side field filling: "fills each Breakdown field from the first
matching alias in that field's ordered alias list (also accepting the same
alias prefixed with `breakdown_`), and defaults a field to zero when no
alias matches". -/
def specFieldValue (values : List (String × ℚ)) (aliases : List String) : ℚ :=
  (aliases.findSome? fun k =>
    (List.lookup (normalizeJSONKey k) values).orElse
      fun _ => List.lookup ("breakdown_" ++ normalizeJSONKey k) values).getD 0

/-- The breakdown decoder as the claim describes it, with the key
normalization as a parameter. -/
def specBreakdownDecodeWith (norm : String → String) (raw : Option JVal) : Breakdown :=
  let values :=
    match raw with
    | some (.obj fields) => specFlattenFields norm [] "" fields
    | _ => []
  { MaterialCost := specFieldValue values ["material_cost", "material"]
    MachineCost := specFieldValue values ["machine_cost", "machine"]
    LaborCost := specFieldValue values ["labor_cost", "labor"]
    Subtotal := specFieldValue values ["subtotal"]
    Overhead := specFieldValue values ["overhead"]
    FailureInsurance := specFieldValue values ["failure_insurance", "failure"]
    PackagingCost := specFieldValue values ["packaging_cost", "packaging"]
    ShippingCost := specFieldValue values ["shipping_cost", "shipping"]
    Margin := specFieldValue values ["margin"]
    Tax := specFieldValue values ["tax"] }

mutual
theorem specFlattenValue_eq : ∀ (values : List (String × ℚ)) (flatKey : String) (v : JVal),
    specFlattenValue normalizeJSONKey values flatKey v = collectNumericValue values flatKey v
  | _, _, .num _ => rfl
  | _, _, .str _ => rfl
  | _, _, .boolean _ => rfl
  | _, _, .null => rfl
  | _, _, .arr _ => rfl
  | values, flatKey, .obj fields => specFlattenFields_eq values flatKey fields

theorem specFlattenFields_eq : ∀ (values : List (String × ℚ)) (pfx : String) (fields : JObj),
    specFlattenFields normalizeJSONKey values pfx fields = collectNumericValues values pfx fields
  | _, _, .nil => rfl
  | values, pfx, .cons key val rest => by
    rw [specFlattenFields, collectNumericValues,
      specFlattenValue_eq values (if pfx = "" then normalizeJSONKey key
        else pfx ++ "_" ++ normalizeJSONKey key) val,
      specFlattenFields_eq _ pfx rest]
end

theorem pickFloat_eq_specFieldValue (values : List (String × ℚ)) :
    ∀ aliases : List String, pickFloat values aliases = specFieldValue values aliases := by
  intro aliases
  induction aliases with
  | nil => simp [pickFloat, specFieldValue]
  | cons a rest ih =>
    rw [pickFloat, specFieldValue, List.findSome?_cons]
    cases h1 : List.lookup (normalizeJSONKey a) values with
    | some v => simp [Option.orElse, h1]
    | none =>
      cases h2 : List.lookup ("breakdown_" ++ normalizeJSONKey a) values with
      | some v => simp [Option.orElse, h1, h2]
      | none => simpa [Option.orElse, h1, h2, specFieldValue] using ih

theorem parseJSONNumberMap_eq_specFlatten (raw : Option JVal) :
    parseJSONNumberMap raw =
      (match raw with
       | some (.obj fields) => specFlattenFields normalizeJSONKey [] "" fields
       | _ => []) := by
  cases raw with
  | none => rfl
  | some v => cases v <;> simp [parseJSONNumberMap, specFlattenFields_eq]

/-! ## Theorems about the snapshot writer/reader (claims C3, C4, C5) -/

/-- C3: for every Breakdown value serialized by the snapshot writer (a JSON
object with the stable lower-snake-case field names, in struct order),
decoding that JSON with the snapshot reader's `extractBreakdownFromJSON`
returns a Breakdown equal to the original, field by field. -/
theorem breakdown_snapshot_round_trip (b : quoteCalcBreakdown) :
    extractBreakdownFromJSON (some (encodeBreakdownJSON b)) =
      { MaterialCost := b.MaterialCost, MachineCost := b.MachineCost,
        LaborCost := b.LaborCost, Subtotal := b.Subtotal,
        Overhead := b.Overhead, FailureInsurance := b.FailureInsurance,
        PackagingCost := b.PackagingCost, ShippingCost := b.ShippingCost,
        Margin := b.Margin, Tax := b.Tax } := rfl

/-- C4 (counterexample): the claim's normalization ("lowercasing and
replacing `-` with `_`") is incomplete — the reader also trims surrounding
whitespace.  On the document `{" material": 1}` the reader returns
`MaterialCost = 1` while the decoder built from the claim's words returns
the all-zero Breakdown. -/
theorem breakdown_decode_differs_from_claimed_normalization :
    extractBreakdownFromJSON
        (some (.obj (JObj.ofList [(" material", .num 1)]))) ≠
      specBreakdownDecodeWith claimedNormalizeKey
        (some (.obj (JObj.ofList [(" material", .num 1)]))) ∧
    (extractBreakdownFromJSON
        (some (.obj (JObj.ofList [(" material", .num 1)])))).MaterialCost = 1 ∧
    (specBreakdownDecodeWith claimedNormalizeKey
        (some (.obj (JObj.ofList [(" material", .num 1)])))).MaterialCost = 0 := by
  refine ⟨?_, by decide, by decide⟩
  intro h
  have := congrArg Breakdown.MaterialCost h
  revert this
  decide

/-- C4 (amended): with the normalization amended to "lowercasing, trimming
surrounding whitespace, and replacing `-` with `_`", the reader is exactly
the decoder described by the claim: flatten nested objects joining keys with
`_`, normalize keys, fill each field from the first matching alias — plain
or `breakdown_`-prefixed — and default to zero; in particular the legacy
document `{"material":1, "machine":2, "labor":3}` decodes to
`MaterialCost = 1, MachineCost = 2, LaborCost = 3` and zero elsewhere. -/
theorem breakdown_decode_matches_spec_decoder :
    (∀ raw : Option JVal,
      extractBreakdownFromJSON raw = specBreakdownDecodeWith normalizeJSONKey raw) ∧
    extractBreakdownFromJSON
        (some (.obj (JObj.ofList
          [("material", .num 1), ("machine", .num 2), ("labor", .num 3)]))) =
      { MaterialCost := 1, MachineCost := 2, LaborCost := 3, Subtotal := 0,
        Overhead := 0, FailureInsurance := 0, PackagingCost := 0,
        ShippingCost := 0, Margin := 0, Tax := 0 } := by
  constructor
  · intro raw
    cases raw with
    | none =>
      simp [extractBreakdownFromJSON, specBreakdownDecodeWith, parseJSONNumberMap,
        pickFloat_eq_specFieldValue]
    | some v =>
      cases v <;>
        simp [extractBreakdownFromJSON, specBreakdownDecodeWith, parseJSONNumberMap,
          pickFloat_eq_specFieldValue, specFlattenFields_eq]
  · decide

/-- C5: on a text that is not valid JSON (modelled by `none`, e.g. the
string `"not json"`), the snapshot reader degrades to the all-zero
Breakdown and a zero total; in this embedding both readers are total
functions into `Breakdown` and `ℚ`, so no input makes them return or
propagate an error. -/
theorem reader_degrades_to_zero_on_invalid_json :
    extractBreakdownFromJSON none =
      { MaterialCost := 0, MachineCost := 0, LaborCost := 0, Subtotal := 0,
        Overhead := 0, FailureInsurance := 0, PackagingCost := 0,
        ShippingCost := 0, Margin := 0, Tax := 0 } ∧
    extractTotalFromJSON none = 0 := by
  exact ⟨rfl, rfl⟩

/-! ## Theorems about total extraction (claims C6, C10) -/

/-- C6: when the totals document decodes as a string-to-number map `m`, the
extracted total is the value under `total`, otherwise under `grand_total`,
otherwise under `final_total`, in that priority order, and 0 when none of
the three keys is present. -/
theorem extract_total_priority_order (raw : Option JVal) (m : List (String × ℚ))
    (hm : decodeNumberMap raw = some m) :
    (∀ v, List.lookup "total" m = some v → extractTotalFromJSON raw = v) ∧
    (List.lookup "total" m = none →
      ∀ v, List.lookup "grand_total" m = some v → extractTotalFromJSON raw = v) ∧
    (List.lookup "total" m = none → List.lookup "grand_total" m = none →
      ∀ v, List.lookup "final_total" m = some v → extractTotalFromJSON raw = v) ∧
    (List.lookup "total" m = none → List.lookup "grand_total" m = none →
      List.lookup "final_total" m = none → extractTotalFromJSON raw = 0) := by
  refine ⟨?_, ?_, ?_, ?_⟩
  · intro v hv
    rw [extractTotalFromJSON, hm]
    simp [hv]
  · intro h0 v hv
    rw [extractTotalFromJSON, hm]
    simp [h0, hv]
  · intro h0 h1 v hv
    rw [extractTotalFromJSON, hm]
    simp [h0, h1, hv]
  · intro h0 h1 h2
    rw [extractTotalFromJSON, hm]
    simp [h0, h1, h2]

/-- C6 (witness): the priority theorem applied to the concrete document
`{"grand_total": 5, "final_total": 7}`, whose extracted total is 5. -/
theorem extract_total_priority_order_witness :
    extractTotalFromJSON
      (some (.obj (JObj.ofList [("grand_total", .num 5), ("final_total", .num 7)]))) = 5 :=
  (extract_total_priority_order
      (some (.obj (JObj.ofList [("grand_total", .num 5), ("final_total", .num 7)])))
      [("final_total", 7), ("grand_total", 5)] (by decide)).2.1 (by decide) 5 (by decide)

/-- Does the object have a member whose value makes the strict
`map[string]float64` decode fail, i.e. a string, boolean, array, or nested
object? (JSON `null` members do not fail: `encoding/json` treats them as a
no-op and the entry decodes as 0.) -/
def hasNonNumericMember : JObj → Bool
  | .nil => false
  | .cons _ (.num _) rest => hasNonNumericMember rest
  | .cons _ .null rest => hasNonNumericMember rest
  | .cons _ _ _ => true

theorem numberFieldsToMap_none_of_nonNumeric :
    ∀ (fields : JObj) (acc : List (String × ℚ)), hasNonNumericMember fields = true →
      numberFieldsToMap acc fields = none
  | .nil, _, h => by simp [hasNonNumericMember] at h
  | .cons key (.num v) rest, acc, h =>
      numberFieldsToMap_none_of_nonNumeric rest ((key, v) :: acc)
        (by simpa [hasNonNumericMember] using h)
  | .cons key .null rest, acc, h =>
      numberFieldsToMap_none_of_nonNumeric rest ((key, 0) :: acc)
        (by simpa [hasNonNumericMember] using h)
  | .cons _ (.str _) _, _, _ => rfl
  | .cons _ (.boolean _) _, _, _ => rfl
  | .cons _ (.arr _) _, _, _ => rfl
  | .cons _ (.obj _) _, _, _ => rfl

/-- C10 (counterexample): the claim that any non-numeric member value makes
the total extraction return 0 fails for JSON `null`: the document
`{"note": null, "total": 5}` contains a non-numeric value, yet the
extraction returns 5 (Go's `encoding/json` treats a `null` member as a
no-op, storing 0 under the key instead of failing). -/
theorem extract_total_tolerates_null_member :
    hasNonNumericMember
        (JObj.ofList [("note", .null), ("total", .num 5)]) = false ∧
    (JObj.ofList [("note", .null), ("total", .num 5)]) ≠
      (JObj.ofList [("note", .num 0), ("total", .num 5)]) ∧
    extractTotalFromJSON
        (some (.obj (JObj.ofList [("note", .null), ("total", .num 5)]))) = 5 := by
  refine ⟨rfl, ?_, by decide⟩
  intro h
  cases h

/-- C10 (amended): the total extraction decodes the totals text strictly as
a flat string-to-number map: any member whose value is a string, boolean,
array, or nested object makes it return 0 even though the document is valid
JSON (a `null` member, by exception, decodes as 0 and does not fail); it
performs no key normalization and no nested-object flattening, so a total
nested inside an object or a key spelled with different letter case also
yields 0. -/
theorem extract_total_strict_flat_decode (fields : JObj)
    (h : hasNonNumericMember fields = true) :
    extractTotalFromJSON (some (.obj fields)) = 0 ∧
    extractTotalFromJSON
        (some (.obj (JObj.ofList
          [("currency", .str "COP"), ("total", .num 5)]))) = 0 ∧
    extractTotalFromJSON
        (some (.obj (JObj.ofList
          [("totals", .obj (JObj.ofList [("total", .num 5)]))]))) = 0 ∧
    extractTotalFromJSON
        (some (.obj (JObj.ofList [("Total", .num 5)]))) = 0 ∧
    extractTotalFromJSON
        (some (.obj (JObj.ofList [("note", .null), ("total", .num 5)]))) = 5 := by
  refine ⟨?_, by decide, by decide, by decide, by decide⟩
  rw [extractTotalFromJSON, decodeNumberMap, numberFieldsToMap_none_of_nonNumeric fields [] h]

/-- C10 (witness): the strictness theorem applied to the concrete document
`{"currency": "COP", "total": 5}`, which extracts as 0. -/
theorem extract_total_strict_flat_decode_witness :
    extractTotalFromJSON
        (some (.obj (JObj.ofList
          [("currency", .str "COP"), ("total", .num 5)]))) = 0 :=
  (extract_total_strict_flat_decode
      (JObj.ofList [("currency", .str "COP"), ("total", .num 5)]) (by decide)).1

/-! ## Multi-item snapshot calculation (`calculateQuoteSnapshot`, claim C9) -/

/-- Go struct `quoteItemInput` (one parsed line item of the quote form). -/
structure quoteItemInput where
  MaterialID   : Int
  Grams        : ℚ
  PrintMinutes : ℚ
  LaborMinutes : ℚ
  Quantity     : Int
deriving DecidableEq

/-- The loop of Go `calculateQuoteSnapshot`: look up each item's active
material cost (the `materials` table is modelled as the partial function
`costPerKgOf`, `none` meaning no active material with that id), compute the
per-line costs by formula steps 1–3 and accumulate them scaled by the
item's own quantity.  A missing material aborts with the error
"material not found". -/
def accumLineCosts (costPerKgOf : Int → Option ℚ) (global : GlobalInput) :
    List quoteItemInput → ℚ × ℚ × ℚ → Except String (ℚ × ℚ × ℚ)
  | [], acc => .ok acc
  | item :: rest, (materialAcc, machineAcc, laborAcc) =>
    match costPerKgOf item.MaterialID with
    | none => .error "material not found"
    | some costPerKg =>
      let lineMaterialCost := (item.Grams / 1000) * costPerKg * (1 + global.WastePercent / 100)
      let lineMachineCost := (item.PrintMinutes / 60) * global.MachineHourlyRate
      let lineLaborCost := item.LaborMinutes * global.LaborPerMinute
      let quantity : ℚ := (item.Quantity : ℚ)
      accumLineCosts costPerKgOf global rest
        (materialAcc + lineMaterialCost * quantity,
         machineAcc + lineMachineCost * quantity,
         laborAcc + lineLaborCost * quantity)

/-- Embedding of Go `calculateQuoteSnapshot`: reject an empty item list,
accumulate per-line costs, then apply overhead, failure insurance, margin
and tax once over the combined subtotal. -/
def calculateQuoteSnapshot (costPerKgOf : Int → Option ℚ)
    (items : List quoteItemInput) (global : GlobalInput) :
    Except String (quoteCalcBreakdown × quoteCalcTotals) :=
  if items.isEmpty then .error "at least one item is required"
  else
    match accumLineCosts costPerKgOf global items (0, 0, 0) with
    | .error e => .error e
    | .ok (materialCost, machineCost, laborCost) =>
      let subtotal := materialCost + machineCost + laborCost
      let overhead := global.OverheadFixed + subtotal * (global.OverheadPercent / 100)
      let failureInsurance := subtotal * (global.FailureRatePercent / 100)
      let margin := (global.MarginPercent / 100) * (subtotal + overhead + failureInsurance)
      let tax := if global.TaxEnabled then
          (global.TaxPercent / 100) * (subtotal + overhead + failureInsurance + margin)
        else 0
      .ok ({ MaterialCost := materialCost
             MachineCost := machineCost
             LaborCost := laborCost
             Subtotal := subtotal
             Overhead := overhead
             FailureInsurance := failureInsurance
             PackagingCost := global.PackagingCost
             ShippingCost := global.ShippingCost
             Margin := margin
             Tax := tax },
           { Total := subtotal + overhead + failureInsurance + global.PackagingCost +
               global.ShippingCost + margin + tax })

/-- The batch rule as the claim states it, written from the spec's words:
per-item formula steps 1–3 scaled by the item's own quantity and summed,
subtotal as the sum of the three accumulated components, then steps 5–9
once over the combined subtotal.  `costOf it` is the material cost per kg
resolved for the item. -/
def specBatchResult (costOf : quoteItemInput → ℚ) (items : List quoteItemInput)
    (global : GlobalInput) : quoteCalcBreakdown × quoteCalcTotals :=
  let materialCost := (items.map fun it =>
    (it.Grams / 1000) * costOf it * (1 + global.WastePercent / 100) * (it.Quantity : ℚ)).sum
  let machineCost := (items.map fun it =>
    (it.PrintMinutes / 60) * global.MachineHourlyRate * (it.Quantity : ℚ)).sum
  let laborCost := (items.map fun it =>
    it.LaborMinutes * global.LaborPerMinute * (it.Quantity : ℚ)).sum
  let subtotal := materialCost + machineCost + laborCost
  let overhead := global.OverheadFixed + subtotal * (global.OverheadPercent / 100)
  let failureInsurance := subtotal * (global.FailureRatePercent / 100)
  let margin := (global.MarginPercent / 100) * (subtotal + overhead + failureInsurance)
  let tax := if global.TaxEnabled then
      (global.TaxPercent / 100) * (subtotal + overhead + failureInsurance + margin)
    else 0
  ({ MaterialCost := materialCost
     MachineCost := machineCost
     LaborCost := laborCost
     Subtotal := subtotal
     Overhead := overhead
     FailureInsurance := failureInsurance
     PackagingCost := global.PackagingCost
     ShippingCost := global.ShippingCost
     Margin := margin
     Tax := tax },
   { Total := subtotal + overhead + failureInsurance + global.PackagingCost +
       global.ShippingCost + margin + tax })

theorem accumLineCosts_ok (costPerKgOf : Int → Option ℚ) (costOf : quoteItemInput → ℚ)
    (global : GlobalInput) :
    ∀ (items : List quoteItemInput) (acc : ℚ × ℚ × ℚ),
      (∀ it ∈ items, costPerKgOf it.MaterialID = some (costOf it)) →
      accumLineCosts costPerKgOf global items acc =
        .ok (acc.1 + (items.map fun it =>
               (it.Grams / 1000) * costOf it * (1 + global.WastePercent / 100) * (it.Quantity : ℚ)).sum,
             acc.2.1 + (items.map fun it =>
               (it.PrintMinutes / 60) * global.MachineHourlyRate * (it.Quantity : ℚ)).sum,
             acc.2.2 + (items.map fun it =>
               it.LaborMinutes * global.LaborPerMinute * (it.Quantity : ℚ)).sum) := by
  intro items
  induction items with
  | nil => intro acc _; simp [accumLineCosts]
  | cons item rest ih =>
    intro acc hall
    obtain ⟨mAcc, mcAcc, lAcc⟩ := acc
    have hitem := hall item (List.mem_cons_self item rest)
    have hrest : ∀ it ∈ rest, costPerKgOf it.MaterialID = some (costOf it) :=
      fun it hit => hall it (List.mem_cons_of_mem item hit)
    rw [accumLineCosts, hitem]
    dsimp only
    rw [ih _ hrest]
    simp only [List.map_cons, List.sum_cons]
    refine congrArg Except.ok ?_
    refine Prod.ext ?_ (Prod.ext ?_ ?_) <;> simp <;> ring

/-- C9: for a non-empty list of line items all of whose materials resolve,
`calculateQuoteSnapshot` implements the multi-item batch rule: per-item
costs by formula steps 1–3, each accumulated scaled by its own quantity,
`Subtotal` the sum of the three accumulated components, and overhead,
failure insurance, margin and tax applied once over the combined subtotal. -/
theorem calculate_quote_snapshot_batch_rule (costPerKgOf : Int → Option ℚ)
    (costOf : quoteItemInput → ℚ) (items : List quoteItemInput) (global : GlobalInput)
    (hne : items ≠ [])
    (hmat : ∀ it ∈ items, costPerKgOf it.MaterialID = some (costOf it)) :
    calculateQuoteSnapshot costPerKgOf items global =
      .ok (specBatchResult costOf items global) := by
  rw [calculateQuoteSnapshot, if_neg (by simpa using hne)]
  rw [accumLineCosts_ok costPerKgOf costOf global items (0, 0, 0) hmat]
  simp only [specBatchResult, zero_add]

/-- C9 (witness): the batch-rule theorem applied to a concrete two-item
quote over a two-material table. -/
theorem calculate_quote_snapshot_batch_rule_witness :
    calculateQuoteSnapshot
        (fun id => if id = 1 then some 20 else if id = 2 then some 10 else none)
        [{ MaterialID := 1, Grams := 200, PrintMinutes := 30, LaborMinutes := 10, Quantity := 3 },
         { MaterialID := 2, Grams := 1000, PrintMinutes := 0, LaborMinutes := 0, Quantity := 2 }]
        testGlobal =
      .ok (specBatchResult
        (fun it => if it.MaterialID = 1 then 20 else 10)
        [{ MaterialID := 1, Grams := 200, PrintMinutes := 30, LaborMinutes := 10, Quantity := 3 },
         { MaterialID := 2, Grams := 1000, PrintMinutes := 0, LaborMinutes := 0, Quantity := 2 }]
        testGlobal) :=
  calculate_quote_snapshot_batch_rule
    (fun id => if id = 1 then some 20 else if id = 2 then some 10 else none)
    (fun it => if it.MaterialID = 1 then 20 else 10)
    [{ MaterialID := 1, Grams := 200, PrintMinutes := 30, LaborMinutes := 10, Quantity := 3 },
     { MaterialID := 2, Grams := 1000, PrintMinutes := 0, LaborMinutes := 0, Quantity := 2 }]
    testGlobal (by decide) (by decide)

/-! ## SQLite LIKE and the quote list (`listQuotes`, claim C7)

`listQuotes` filters with the SQL predicate
`title LIKE '%'||q||'%' OR notes LIKE '%'||q||'%'` and orders by
`datetime(created_at) DESC, id DESC`.  SQLite's `LIKE` (without `ESCAPE`) is
matched here: `%` matches any sequence of characters, `_` matches exactly
one character, and ordinary characters compare case-insensitively on ASCII. -/

/-- Does `f` accept some suffix of the string?  (The backtracking step of a
`%` wildcard.) -/
def matchAnySuffix (f : List Char → Bool) : List Char → Bool
  | [] => f []
  | c :: tl => f (c :: tl) || matchAnySuffix f tl

/-- SQLite `LIKE` pattern matching (pattern, then candidate string). -/
def likeMatch : List Char → List Char → Bool
  | [] => fun s => s.isEmpty
  | p :: ps =>
    if p = '%' then matchAnySuffix (likeMatch ps)
    else fun s =>
      match s with
      | [] => false
      | c :: tl => (p = '_' || lowerAscii p = lowerAscii c) && likeMatch ps tl

/-- SQLite `value LIKE pat`. -/
def sqliteLike (pat value : String) : Bool :=
  likeMatch pat.data value.data

theorem matchAnySuffix_iff (f : List Char → Bool) :
    ∀ s : List Char, matchAnySuffix f s = true ↔ ∃ s1 s2, s = s1 ++ s2 ∧ f s2 = true := by
  intro s
  induction s with
  | nil =>
    constructor
    · intro h; exact ⟨[], [], rfl, h⟩
    · rintro ⟨s1, s2, heq, hf⟩
      obtain ⟨h1, h2⟩ := List.append_eq_nil.mp heq.symm
      subst h2; exact hf
  | cons c tl ih =>
    constructor
    · intro h
      rcases Bool.or_eq_true_iff.mp h with h | h
      · exact ⟨[], c :: tl, rfl, h⟩
      · obtain ⟨s1, s2, heq, hf⟩ := ih.mp h
        exact ⟨c :: s1, s2, by rw [heq]; rfl, hf⟩
    · rintro ⟨s1, s2, heq, hf⟩
      cases s1 with
      | nil =>
        apply Bool.or_eq_true_iff.mpr
        exact Or.inl (by simpa using heq ▸ hf)
      | cons a s1 =>
        apply Bool.or_eq_true_iff.mpr
        refine Or.inr (ih.mpr ⟨s1, s2, ?_, hf⟩)
        simpa using congrArg List.tail heq

theorem likeMatch_of_plain (t : List Char) (ht : ∀ c ∈ t, c ≠ '%' ∧ c ≠ '_') :
    ∀ s : List Char, likeMatch t s = true ↔ s.map lowerAscii = t.map lowerAscii := by
  induction t with
  | nil =>
    intro s
    simp [likeMatch, List.isEmpty_iff, List.map_eq_nil_iff]
  | cons p ps ih =>
    intro s
    have hp := ht p (List.mem_cons_self p ps)
    have ihs := ih fun c hc => ht c (List.mem_cons_of_mem p hc)
    cases s with
    | nil => simp [likeMatch, hp.1]
    | cons c tl =>
      rw [likeMatch]
      rw [if_neg hp.1]
      simp only [List.map_cons, List.cons.injEq, Bool.and_eq_true, Bool.or_eq_true_iff,
        decide_eq_true_eq]
      constructor
      · rintro ⟨hc | hc, hrest⟩
        · exact absurd hc hp.2
        · exact ⟨hc.symm, (ihs tl).mp hrest⟩
      · rintro ⟨hc, hrest⟩
        exact ⟨Or.inr hc.symm, (ihs tl).mpr hrest⟩

theorem likeMatch_plain_percent (t : List Char) (ht : ∀ c ∈ t, c ≠ '%' ∧ c ≠ '_') :
    ∀ s : List Char, likeMatch (t ++ ['%']) s = true ↔
      ∃ s1 s2, s = s1 ++ s2 ∧ s1.map lowerAscii = t.map lowerAscii := by
  induction t with
  | nil =>
    intro s
    rw [List.nil_append]
    rw [show likeMatch ['%'] = matchAnySuffix (likeMatch []) from rfl]
    rw [matchAnySuffix_iff]
    constructor
    · rintro ⟨s1, s2, heq, _⟩; exact ⟨[], s, rfl, rfl⟩
    · rintro ⟨s1, s2, heq, hmap⟩
      exact ⟨s, [], by simp, by simp [likeMatch]⟩
  | cons p ps ih =>
    intro s
    have hp := ht p (List.mem_cons_self p ps)
    have ihs := ih fun c hc => ht c (List.mem_cons_of_mem p hc)
    rw [List.cons_append, likeMatch, if_neg hp.1]
    cases s with
    | nil =>
      constructor
      · intro h; cases h
      · rintro ⟨s1, s2, heq, hmap⟩
        obtain ⟨h1, _⟩ := List.append_eq_nil.mp heq.symm
        subst h1
        simp at hmap
    | cons c tl =>
      simp only [Bool.and_eq_true, Bool.or_eq_true_iff, decide_eq_true_eq]
      rw [ihs tl]
      constructor
      · rintro ⟨hc | hc, s1, s2, heq, hmap⟩
        · exact absurd hc hp.2
        · exact ⟨c :: s1, s2, by rw [heq]; rfl, by simp [hmap, hc]⟩
      · rintro ⟨s1, s2, heq, hmap⟩
        cases s1 with
        | nil => simp at hmap
        | cons a s1 =>
          simp only [List.cons_append, List.cons.injEq] at heq
          obtain ⟨hca, htl⟩ := heq
          simp only [List.map_cons, List.cons.injEq] at hmap
          subst hca
          exact ⟨Or.inr hmap.1.symm, s1, s2, htl, hmap.2⟩

theorem sqliteLike_iff_infix (query s : String)
    (hq : ∀ c ∈ query.data, c ≠ '%' ∧ c ≠ '_') :
    sqliteLike ("%" ++ query ++ "%") s = true ↔
      query.data.map lowerAscii <:+: s.data.map lowerAscii := by
  have hdata : ("%" ++ query ++ "%").data = '%' :: (query.data ++ ['%']) := rfl
  rw [sqliteLike, hdata]
  rw [show likeMatch ('%' :: (query.data ++ ['%'])) =
    matchAnySuffix (likeMatch (query.data ++ ['%'])) from rfl]
  rw [matchAnySuffix_iff]
  constructor
  · rintro ⟨s1, s2, heq, hlike⟩
    obtain ⟨a, b, hab, hmap⟩ := (likeMatch_plain_percent query.data hq s2).mp hlike
    exact ⟨s1.map lowerAscii, b.map lowerAscii, by
      rw [heq, hab]; simp [hmap]⟩
  · rintro ⟨u, w, huw⟩
    rw [List.append_assoc] at huw
    obtain ⟨s1, rest, hsplit, hmapu, hmaprest⟩ := List.map_eq_append_iff.mp huw.symm
    obtain ⟨a, b, hsplit2, hmapa, hmapb⟩ := List.map_eq_append_iff.mp hmaprest
    refine ⟨s1, rest, hsplit, ?_⟩
    exact (likeMatch_plain_percent query.data hq rest).mpr ⟨a, b, hsplit2, hmapa⟩

/-- One stored row of the `quotes` table as `listQuotes` reads it.
`createdAt` stands for the value `datetime(created_at)` of a well-formed
stored timestamp; that canonical text orders exactly like the time it
denotes, so it is modelled by a natural number with the chronological
order.  `totalsJSON` is the persisted `totals_json` text (`none` = text
that is not valid JSON). -/
structure quoteRow where
  id         : Int
  createdAt  : Nat
  title      : String
  notes      : String
  totalsJSON : Option JVal

/-- Go struct `quoteListItem`: one row of the rendered quote list. -/
structure quoteListItem where
  ID        : Int
  CreatedAt : Nat
  Title     : String
  Total     : ℚ
deriving DecidableEq

/-- Order `ORDER BY datetime(created_at) DESC, id DESC`: row `a` may come
before row `b`. -/
def rowOrder (a b : quoteRow) : Prop :=
  b.createdAt < a.createdAt ∨ (b.createdAt = a.createdAt ∧ b.id ≤ a.id)

instance : DecidableRel rowOrder := fun a b =>
  inferInstanceAs (Decidable (b.createdAt < a.createdAt ∨
    (b.createdAt = a.createdAt ∧ b.id ≤ a.id)))

instance : IsTotal quoteRow rowOrder :=
  ⟨by intro a b; unfold rowOrder; omega⟩

instance : IsTrans quoteRow rowOrder :=
  ⟨by intro a b c; unfold rowOrder; omega⟩

/-- The projection done by the row loop of Go `listQuotes`: select id,
created_at, title and extract the total from the stored totals text. -/
def rowToItem (q : quoteRow) : quoteListItem :=
  { ID := q.id, CreatedAt := q.createdAt, Title := q.title,
    Total := extractTotalFromJSON q.totalsJSON }

/-- Embedding of Go `listQuotes` over a modelled `quotes` table: the SQL
`WHERE (? = '' OR title LIKE '%'||?||'%' OR notes LIKE '%'||?||'%')
ORDER BY datetime(created_at) DESC, id DESC` followed by the scan loop that
extracts each row's total.  (`COALESCE(title,'')` is modelled by `title` and
`notes` being non-null strings.) -/
def listQuotes (db : List quoteRow) (query : String) : List quoteListItem :=
  let search := "%" ++ query ++ "%"
  let matched := db.filter fun q =>
    query == "" || sqliteLike search q.title || sqliteLike search q.notes
  (List.insertionSort rowOrder matched).map rowToItem

/-- Case-sensitive substring containment, the claim's wording of the
filter. -/
def containsSubstring (hay needle : String) : Prop :=
  needle.data <:+: hay.data

instance : ∀ hay needle, Decidable (containsSubstring hay needle) := fun hay needle =>
  inferInstanceAs (Decidable (needle.data <:+: hay.data))

/-- Case-insensitive (ASCII) substring containment: the semantics the
SQLite `LIKE` filter actually has for wildcard-free search terms. -/
def containsSubstringCI (hay needle : String) : Prop :=
  needle.data.map lowerAscii <:+: hay.data.map lowerAscii

instance : ∀ hay needle, Decidable (containsSubstringCI hay needle) := fun hay needle =>
  inferInstanceAs (Decidable (needle.data.map lowerAscii <:+: hay.data.map lowerAscii))

/-- The quote titled "Casa" of the repository's own quote-list test
`TestListQuotesFilterByTitleAndNotes`. -/
def casaRow : quoteRow :=
  { id := 1, createdAt := 1, title := "Casa", notes := "impresion roja",
    totalsJSON := some (.obj (JObj.ofList [("total", .num 80)])) }

/-- C7 (counterexample): `listQuotes` is not a case-sensitive filter.  For
the search term `"casa"` neither the title `"Casa"` nor the notes of the
stored quote contain the term as a case-sensitive substring, so the claim
predicts the empty result, yet `listQuotes` returns the row (SQLite `LIKE`
compares ASCII case-insensitively; the repository's own test expects this
match). -/
theorem listQuotes_case_sensitivity_fails :
    ¬ containsSubstring casaRow.title "casa" ∧
    ¬ containsSubstring casaRow.notes "casa" ∧
    ("casa" : String) ≠ "" ∧
    listQuotes [casaRow] "casa" =
      [{ ID := 1, CreatedAt := 1, Title := "Casa", Total := 80 }] := by
  refine ⟨by decide, by decide, by decide, by decide⟩

/-- C7 (amended): for a search term free of the `LIKE` wildcard characters
`%` and `_`, `listQuotes` returns exactly the stored quotes whose title or
notes contains the term as a **case-insensitive (ASCII)** substring (all
stored quotes when the term is empty), ordered by creation timestamp
descending with ties broken by id descending. -/
theorem listQuotes_filters_and_orders (db : List quoteRow) (query : String)
    (hq : ∀ c ∈ query.data, c ≠ '%' ∧ c ≠ '_') :
    (listQuotes db query).Perm
      ((db.filter fun q => query == "" ||
          decide (containsSubstringCI q.title query) ||
          decide (containsSubstringCI q.notes query)).map rowToItem) ∧
    (listQuotes db query).Sorted (fun a b =>
      b.CreatedAt < a.CreatedAt ∨ (b.CreatedAt = a.CreatedAt ∧ b.ID ≤ a.ID)) := by
  have hlike : ∀ s : String, sqliteLike ("%" ++ query ++ "%") s =
      decide (containsSubstringCI s query) := by
    intro s
    rw [Bool.eq_iff_iff, sqliteLike_iff_infix query s hq]
    simp [containsSubstringCI]
  have hpred : (fun q : quoteRow =>
      query == "" || sqliteLike ("%" ++ query ++ "%") q.title ||
        sqliteLike ("%" ++ query ++ "%") q.notes) =
      (fun q : quoteRow => query == "" ||
        decide (containsSubstringCI q.title query) ||
        decide (containsSubstringCI q.notes query)) := by
    funext q
    rw [hlike q.title, hlike q.notes]
  constructor
  · show ((List.insertionSort rowOrder (db.filter _)).map rowToItem).Perm _
    rw [hpred]
    exact (List.perm_insertionSort rowOrder _).map rowToItem
  · show ((List.insertionSort rowOrder (db.filter _)).map rowToItem).Sorted _
    apply List.Pairwise.map rowToItem
    · intro a b hab
      exact hab
    · exact List.sorted_insertionSort rowOrder _

/-- The three quotes seeded by the repository's quote-list filter test:
titles "Casa", "Llaveros", "Prototipo" with notes "impresion roja",
"cliente vip", "urgente para casa". -/
def demoQuotes : List quoteRow :=
  [{ id := 1, createdAt := 1, title := "Casa", notes := "impresion roja",
     totalsJSON := some (.obj (JObj.ofList [("total", .num 80)])) },
   { id := 2, createdAt := 2, title := "Llaveros", notes := "cliente vip",
     totalsJSON := some (.obj (JObj.ofList [("total", .num 120)])) },
   { id := 3, createdAt := 3, title := "Prototipo", notes := "urgente para casa",
     totalsJSON := some (.obj (JObj.ofList [("total", .num 160)])) }]

/-- C7 (witness): the filtering/ordering theorem applied to the test data
with the search term "Llave". -/
theorem listQuotes_filters_and_orders_witness :
    (listQuotes demoQuotes "Llave").Perm
      ((demoQuotes.filter fun q => "Llave" == "" ||
          decide (containsSubstringCI q.title "Llave") ||
          decide (containsSubstringCI q.notes "Llave")).map rowToItem) ∧
    (listQuotes demoQuotes "Llave").Sorted (fun a b =>
      b.CreatedAt < a.CreatedAt ∨ (b.CreatedAt = a.CreatedAt ∧ b.ID ≤ a.ID)) :=
  listQuotes_filters_and_orders demoQuotes "Llave" (by decide)

end OWorks
